import Mathlib

/-!
Verification of the iago remote-execution framework (relab/iago) against its
natural-language specification.  The Go source is embedded shallowly: pure
functions become Lean functions, effectful code is modelled by explicit
environments (abstract functions standing for the network / filesystem
collaborators) and by traces of the calls issued to them.  File modes are
plain naturals (Go's fs.FileMode), and fallible Go functions return
Except/Option values.
-/

deriving instance DecidableEq for Except

namespace Iago

/-! ## Paths (fs.go: Path, isAbs, CleanPath, NewPath)

The repository targets Unix in this development: `filepath.ToSlash` is the
identity, `filepath.Separator` is `/`, and `filepath.VolumeName` is always
empty, so `filepath.Clean` coincides with slash-path cleaning. -/

/-- Go `filepath.VolumeName`, specialized to Unix where it is empty. -/
def volumeName (_path : String) : String := ""

/-- Splits a character list at every occurrence of `sep` (the character
analogue of Go `strings.Split`). -/
def splitOnChar (sep : Char) : List Char → List (List Char)
  | [] => [[]]
  | c :: cs =>
    if c = sep then [] :: splitOnChar sep cs
    else
      match splitOnChar sep cs with
      | r :: rs => (c :: r) :: rs
      | [] => [[c]]

/-- Joins character-list components with `/` (the character analogue of Go
`strings.Join(components, "/")`). -/
def joinSlash : List (List Char) → List Char
  | [] => []
  | [x] => x
  | x :: y :: xs => x ++ '/' :: joinSlash (y :: xs)

/-- Go `path.Clean` for slash-separated paths (on Unix this equals fs.go's
`filepath.ToSlash(filepath.Clean(path))`): drop empty and `.` elements,
resolve a `..` element against a preceding element, keep leading `..`
elements of a relative path, clamp `..` at the root of an absolute path,
and return "." when nothing remains of a relative path. -/
def cleanSlash (path : String) : String :=
  let chars := path.toList
  if chars = [] then "."
  else
    let rooted := chars.head? = some '/'
    let comps := (splitOnChar '/' chars).filter fun c => !(c == []) && !(c == ['.'])
    let out := (comps.foldl (fun acc c =>
      if c = ['.', '.'] then
        match acc with
        | [] => if rooted then [] else [c]
        | a :: rest => if a = ['.', '.'] then c :: acc else rest
      else c :: acc) ([] : List (List Char))).reverse
    let s := joinSlash out
    if rooted then String.mk ('/' :: s)
    else if s = [] then "." else String.mk s

/-- fs.go `CleanPath`: cleans the path and converts it to slashes. -/
def CleanPath (path : String) : String := cleanSlash path

/-- fs.go `isAbs`: reports whether the path is absolute, following the
source's structure (leading slash, else a non-empty volume name followed by
a slash; the volume name is empty on Unix). -/
def isAbs (path : String) : Bool :=
  match path.toList with
  | '/' :: _ => true
  | chars =>
    let l := (volumeName path).length
    if l = 0 then false
    else
      match chars.drop l with
      | [] => false
      | c :: _ => c = '/'

/-- fs.go errors `ErrNotAbsolute` / `ErrNotRelative`, wrapped by `NewPath`
with the offending path. -/
inductive PathError where
  | notAbsolute (path : String)
  | notRelative (path : String)
deriving DecidableEq, Repr

/-- fs.go `Path`: a path to a file or directory, relative to the prefix
(field `prefix` in the source, `pre` here). -/
structure Path where
  pre : String
  path : String
deriving DecidableEq, Repr

/-- fs.go `Path.String`: the resolved path string, `p.prefix + p.path`. -/
def Path.toString (p : Path) : String := p.pre ++ p.path

/-- fs.go `NewPath`: requires an absolute prefix and a relative path, and
stores both cleaned. -/
def NewPath (pre path : String) : Except PathError Path :=
  if !isAbs pre then .error (.notAbsolute pre)
  else if isAbs path then .error (.notRelative path)
  else .ok ⟨CleanPath pre, CleanPath path⟩

/-! ## Permissions (fs.go: Perm)

Embeds the `Perm` struct: a file mode, a directory mode, and two booleans
recording whether each was supplied. -/

/-- Go `fs.FileMode`, embedded as a natural number. -/
abbrev FileMode := Nat

/-- fs.go `Perm`: permissions used when creating files or directories. -/
structure Perm where
  perm : FileMode
  haveFilePerm : Bool
  dirPerm : FileMode
  haveDirPerm : Bool
deriving DecidableEq, Repr

/-- The Go zero value `Perm{}`: no file or directory permission supplied. -/
def Perm.zero : Perm := ⟨0, false, 0, false⟩

/-- fs.go `NewPerm`: a Perm with the requested file permission. -/
def NewPerm (perm : FileMode) : Perm :=
  { perm := perm, haveFilePerm := true, dirPerm := 0, haveDirPerm := false }

/-- fs.go `Perm.WithDirPerm`: sets the directory permission. -/
def Perm.WithDirPerm (p : Perm) (dirPerm : FileMode) : Perm :=
  { p with dirPerm := dirPerm, haveDirPerm := true }

/-- fs.go `Perm.GetFilePerm`: the file permission, or 0644 if none was set. -/
def Perm.GetFilePerm (p : Perm) : FileMode :=
  if p.haveFilePerm then p.perm else 0o644

/-- fs.go `Perm.GetDirPerm`: the directory permission, or the file
permission, or 0755 if no permissions were set. -/
def Perm.GetDirPerm (p : Perm) : FileMode :=
  if p.haveDirPerm then p.dirPerm
  else if p.haveFilePerm then p.perm
  else 0o755

/-! ## Task errors and the group orchestrator (iago.go)

`Group.Run` launches one goroutine per host, each sending
`wrapError(h.Name(), name, f(ctx, h))` on an unbuffered channel, and then
receives exactly `len(g.Hosts)` values, invoking the error handler on each
non-nil one.  The action's outcome on a host is modelled as
`Option Err` (`none` = the Go nil error), and the nondeterministic channel
arrival order as an arbitrary permutation of the per-host results. -/

/-- A Go `error` value produced by an action, embedded as a string. -/
abbrev Err := String

/-- iago.go `TaskError`: the error type wrapping a task failure. -/
structure TaskError where
  TaskName : String
  HostName : String
  Err : Err
deriving DecidableEq, Repr

/-- iago.go `TaskError.Error`: "(%s) %s: %s" with host, task, cause. -/
def TaskError.errorString (e : TaskError) : String :=
  "(" ++ e.HostName ++ ") " ++ e.TaskName ++ ": " ++ e.Err

/-- iago.go `wrapError`: nil stays nil, a non-nil error is wrapped in a
`TaskError` carrying the host name and task name. -/
def wrapError (hostName taskName : String) : Option Err → Option TaskError
  | none => none
  | some e => some ⟨taskName, hostName, e⟩

/-- A host as seen by the orchestrator: only its name matters here. -/
structure GHost where
  name : String
deriving DecidableEq, Repr

/-- The multiset of results sent on the `errors` channel by the goroutines
spawned in `Group.Run`: one `wrapError h.Name() name (f ctx h)` per host,
listed in `g.Hosts` order. -/
def runResults (hosts : List GHost) (taskName : String) (f : GHost → Option Err) :
    List (Option TaskError) :=
  hosts.map fun h => wrapError h.name taskName (f h)

/-- The error-handler invocations made by the receive loop of `Group.Run`,
given the channel arrival order: every non-nil received error is handed to
`g.ErrorHandler`, in order. -/
def handlerCalls (arrivals : List (Option TaskError)) : List TaskError :=
  arrivals.filterMap id

/-! ## Copy engine destination naming (fs.go: copyAction.Apply)

After `fs.Stat` classifies the source, `copyAction.Apply` computes the
destination path: on a fetch (Download) a directory source gets
`dest += "/" + host.Name()` and a file source gets
`dest += "." + host.Name()`; an upload leaves `dest` unchanged.  The stat
outcome is an input (`none` = stat error), and the result records which
copy routine is invoked with which source/destination. -/

/-- The recursive copy call issued by `copyAction.Apply` after stat. -/
inductive CopyCall where
  | dir (src dest : String)
  | file (src dest : String)
deriving DecidableEq, Repr

/-- fs.go `copyAction.Apply`, lines 179–198: stat the source, then branch on
directory/file and on the fetch flag to pick the destination name.
`stat = none` models a stat error (the action returns it unchanged);
`stat = some isDir` models success. -/
def copyActionApply (fetch : Bool) (srcPath destPath hostName : String)
    (stat : Option Bool) : Option CopyCall :=
  match stat with
  | none => none
  | some isDir =>
    if isDir then
      let dest := if fetch then destPath ++ "/" ++ hostName else destPath
      some (.dir srcPath dest)
    else
      let dest := if fetch then destPath ++ "." ++ hostName else destPath
      some (.file srcPath dest)

/-! ## Remote SFTP filesystem (sftpfs/sftpfs.go: sftpFS.OpenFile)

`OpenFile` validates the name, builds the full path `prefix + "/" + name`,
stats it, fails with EISDIR if it is a directory, opens it (creating it if
the stat said not-exist), and — only in the created case — explicitly
chmods the new file to the requested mode.  The SFTP client is an abstract
environment, and the sequence of client calls is recorded as a trace. -/

/-- Go `fs.ValidPath`: "." names the root and is valid; otherwise the name
must be non-empty and consist of slash-separated elements none of which is
empty, "." or "..".  (Lean strings are always valid UTF-8, so Go's
utf8.ValidString check always holds here.) -/
def validPath (name : String) : Bool :=
  if name = "." then true
  else if name = "" then false
  else (splitOnChar '/' name.toList).all fun elem =>
    !(elem == []) && !(elem == ['.']) && !(elem == ['.', '.'])

/-- The outcome of `sftp.Client.Stat` on the remote side. -/
inductive StatResult where
  | found (isDir : Bool)
  | notExist
  | failOther
deriving DecidableEq, Repr

/-- A call issued to the SFTP client (or to the returned file handle). -/
inductive SftpOp where
  | statOp (path : String)
  | openOp (path : String) (flag : Nat)
  | chmodOp (perm : FileMode)
deriving DecidableEq, Repr

/-- The abstract SFTP session: what stat reports for each path, whether an
open succeeds, and whether the post-creation chmod succeeds. -/
structure SftpEnv where
  stat : String → StatResult
  openOk : String → Nat → Bool
  chmodOk : Bool

/-- The result of `sftpFS.OpenFile`, without the file handle itself. -/
inductive OpenFileResult where
  | opened
  | errInvalidPath
  | errIsDir
  | errOpenFailed
  | errChmodFailed
deriving DecidableEq, Repr

/-- sftpfs.go `sftpFS.OpenFile`: validate the name, stat the full path,
fail with "is a directory" on a directory, open (create-if-missing per the
flags), and chmod the requested mode only when the stat said the file did
not exist.  Returns the outcome together with the trace of client calls. -/
def sftpOpenFile (env : SftpEnv) (pre name : String) (flag : Nat)
    (perm : FileMode) : OpenFileResult × List SftpOp :=
  if !validPath name then (.errInvalidPath, [])
  else
    let full := pre ++ "/" ++ name
    let statRes := env.stat full
    let create := statRes = .notExist
    match statRes with
    | .found true => (.errIsDir, [.statOp full])
    | _ =>
      if env.openOk full flag then
        if create then
          if env.chmodOk then
            (.opened, [.statOp full, .openOp full flag, .chmodOp perm])
          else
            (.errChmodFailed, [.statOp full, .openOp full flag, .chmodOp perm])
        else (.opened, [.statOp full, .openOp full flag])
      else (.errOpenFailed, [.statOp full, .openOp full flag])

/-! ## Remote command execution (ssh.go: sshHost.Execute, safeClose)

`Execute` opens a session (propagating a session-creation error, which
returns before any defer is registered), runs the command with stdout
captured in a buffer, and executes `return "", nil` when `session.Run`
fails or `return buf.String(), nil` on success.  The helper goroutine runs
`safeClose(session, &err, io.EOF)` on the named return `err` once the
child context is cancelled, and the deferred `<-c` joins it before Execute
returns: on the normal path the deferred `cancel()` fires after the
`return` statement has set `err`, so the session-close outcome is folded
into the already-set named return value by `safeClose`. -/

/-- An ssh session handle, abstract. -/
abbrev Session := Nat

/-- Go `io.EOF` as an error value.  `errors.Is(err, io.EOF)` on it is
modelled as equality with this value (io.EOF is an unwrapped sentinel). -/
def ioEOF : Err := "EOF"

/-- iago.go `safeClose`: fold a closer's close error into the error
pointer — an already-set error is kept, a close error matching one of the
ignored sentinels is dropped, otherwise the close error (possibly nil) is
stored.  Returns the new value of the error pointer. -/
def safeClose (closeErr : Option Err) (errPtr : Option Err)
    (ignored : List Err) : Option Err :=
  match errPtr with
  | some e => some e
  | none =>
    match closeErr with
    | none => none
    | some ce => if ignored.contains ce then none else some ce

/-- Environment for `sshHost.Execute`: session creation, the outcome of
`session.Run` (the buffered stdout and the error, `none` = nil), and the
outcome of `session.Close` as invoked by the helper goroutine's
`safeClose`. -/
structure ExecEnv where
  newSession : Except Err Session
  runCmd : Session → String → String × Option Err
  closeSession : Session → Option Err

/-- ssh.go `sshHost.Execute`: a session-creation failure is returned
directly (no defer registered yet); otherwise the `return "", nil` (Run
failure) or `return buf.String(), nil` (success) value is post-processed by
the joined helper goroutine's `safeClose(session, &err, io.EOF)`, which can
replace the nil named-return error with a non-EOF session-close error. -/
def executeCmd (env : ExecEnv) (cmd : String) : String × Option Err :=
  match env.newSession with
  | .error e => ("", some e)
  | .ok session =>
    let res := env.runCmd session cmd
    match res.2 with
    | some _ => ("", safeClose (env.closeSession session) none [ioEOF])
    | none => (res.1, safeClose (env.closeSession session) none [ioEOF])

/-! ## SSH configuration resolver (ssh.go: sshConfig, ClientConfig,
ConnectAddr, fileSigner, agentSigners, getHostKeyCallback)

The kevinburke/ssh_config parser is the external lookup collaborator: it is
modelled as an abstract `(alias, key) → value-or-error` function, plus its
built-in default table for unset directives.  The OS (file reads, key
parsing, the ssh agent, the current user) is a `ResolveEnv` of abstract
functions: `agent` is the signer list obtained from the agent (empty when
the agent is unavailable, mirroring `agentSigners` returning nil), and
`readFile`/`parseKey` return `none` on failure, mirroring `fileSigner`
returning nil. -/

/-- An ssh authentication signer, abstract. -/
abbrev Signer := String

/-- The errors `sshConfig.ClientConfig` and its helpers can produce,
one constructor per `fmt.Errorf` site in the source. -/
inductive SSHErr where
  | getFailed (key hostAlias : String)
  | hostKeyFailed (hostAlias : String)
  | noValidAuth (hostAlias : String)
  | userFailed
  | dialFailed (msg : String)
deriving DecidableEq, Repr

/-- The host-key verification policy returned by `getHostKeyCallback`. -/
inductive HostKeyCallback where
  | insecureIgnore
  | knownHosts (files : List String)
deriving DecidableEq, Repr

/-- The fields of the `ssh.ClientConfig` built by `ClientConfig`. -/
structure SSHClientConfig where
  user : String
  signers : List Signer
  hostKeyCallback : HostKeyCallback
deriving DecidableEq, Repr

/-- The external ssh_config lookup collaborator: `config.Get(alias, key)`,
which may fail (error payload abstracted as a string). -/
structure SSHConfigM where
  lookup : String → String → Except String String

/-- The OS / agent environment threaded through the resolver. -/
structure ResolveEnv where
  homeDir : String
  agent : List Signer
  readFile : String → Option String
  parseKey : String → Option Signer
  fileExists : String → Bool
  mkKnownHosts : List String → Option HostKeyCallback
  currentUser : Option String

/-- ssh.go `expand`: a path beginning with "~/" is joined onto the home
directory (Go `filepath.Join` cleans the result); anything else is
returned unchanged. -/
def expandTilde (homeDir path : String) : String :=
  match path.toList with
  | '~' :: '/' :: rest => cleanSlash (homeDir ++ "/" ++ String.mk rest)
  | _ => path

/-- kevinburke/ssh_config `Default`: the built-in default value of a
directive, for the directives this repository reads ("22" for Port,
"~/.ssh/identity" for IdentityFile, "ask" for StrictHostKeyChecking, the
two default known_hosts files for UserKnownHostsFile, and "" for Hostname
and User, which have no default). -/
def sshDefault (key : String) : String :=
  if key = "Port" then "22"
  else if key = "IdentityFile" then "~/.ssh/identity"
  else if key = "StrictHostKeyChecking" then "ask"
  else if key = "UserKnownHostsFile" then "~/.ssh/known_hosts ~/.ssh/known_hosts2"
  else ""

/-- ssh.go `sshConfig.get`: look the key up for the alias, wrapping a
lookup failure, and fall back to the built-in default when unset. -/
def cfgGet (cw : SSHConfigM) (hostAlias key : String) : Except SSHErr String :=
  match cw.lookup hostAlias key with
  | .error _ => .error (.getFailed key hostAlias)
  | .ok val => .ok (if val = "" then sshDefault key else val)

/-- Go `strings.Split(s, " ")`. -/
def splitSpaces (s : String) : List String :=
  (splitOnChar ' ' s.toList).map String.mk

/-- ssh.go `fileSigner`: read the (tilde-expanded) identity file and parse
a private key from it; any failure yields no signer (`none`), never an
error. -/
def fileSigner (env : ResolveEnv) (file : String) : Option Signer :=
  match env.readFile (expandTilde env.homeDir file) with
  | none => none
  | some buffer => env.parseKey buffer

/-- ssh.go `createHostKeyCallback`: expand each known_hosts path, skip the
ones that do not exist, and build the verifier (`none` models a
`knownhosts.New` failure). -/
def createHostKeyCallback (env : ResolveEnv) (paths : List String) :
    Option HostKeyCallback :=
  env.mkKnownHosts ((paths.map (expandTilde env.homeDir)).filter env.fileExists)

/-- ssh.go `sshConfig.getHostKeyCallback`: "no" disables checking;
otherwise build a known-hosts verifier from the space-separated
UserKnownHostsFile list. -/
def getHostKeyCallback (cw : SSHConfigM) (env : ResolveEnv)
    (hostAlias : String) : Except SSHErr HostKeyCallback :=
  match cfgGet cw hostAlias "StrictHostKeyChecking" with
  | .error e => .error e
  | .ok strictHostKeyChecking =>
    if strictHostKeyChecking = "no" then .ok .insecureIgnore
    else
      match cfgGet cw hostAlias "UserKnownHostsFile" with
      | .error e => .error e
      | .ok userKnownHostsFile =>
        match createHostKeyCallback env (splitSpaces userKnownHostsFile) with
        | none => .error (.hostKeyFailed hostAlias)
        | some cb => .ok cb

/-- ssh.go `sshConfig.ClientConfig`: host-key callback, agent signers plus
an optional identity-file signer, hard error naming the alias when no
signer was gathered, then the user (falling back to the current OS user). -/
def clientConfig (cw : SSHConfigM) (env : ResolveEnv) (hostAlias : String) :
    Except SSHErr SSHClientConfig :=
  match getHostKeyCallback cw env hostAlias with
  | .error e => .error e
  | .ok hostKeyCallback =>
    let signers := env.agent
    match cfgGet cw hostAlias "IdentityFile" with
    | .error e => .error e
    | .ok identityFile =>
      let signers :=
        match fileSigner env identityFile with
        | some pubkey => signers ++ [pubkey]
        | none => signers
      if signers.length = 0 then .error (.noValidAuth hostAlias)
      else
        match cfgGet cw hostAlias "User" with
        | .error e => .error e
        | .ok usr =>
          if usr = "" then
            match env.currentUser with
            | none => .error .userFailed
            | some currentUser => .ok ⟨currentUser, signers, hostKeyCallback⟩
          else .ok ⟨usr, signers, hostKeyCallback⟩

/-- Go `net.JoinHostPort`: bracket the host when it contains a colon. -/
def joinHostPort (host port : String) : String :=
  if host.toList.contains ':' then "[" ++ host ++ "]:" ++ port
  else host ++ ":" ++ port

/-- ssh.go `sshConfig.ConnectAddr`: hostname (falling back to the alias)
joined with the port; the empty string on any lookup error. -/
def connectAddr (cw : SSHConfigM) (hostAlias : String) : String :=
  match cfgGet cw hostAlias "Hostname" with
  | .error _ => ""
  | .ok hostname =>
    let hostname := if hostname = "" then hostAlias else hostname
    match cfgGet cw hostAlias "Port" with
    | .error _ => ""
    | .ok port => joinHostPort hostname port

/-- A live connection handle, abstract. -/
abbrev HostObj := Nat

/-- The dialing collaborator: `DialSSH(name, addr, cfg)`, abstracted over
the config (which does not influence which address is dialed). -/
structure DialEnv where
  dial : String → String → Except SSHErr HostObj

/-- ssh.go `NewSSHGroup`'s per-alias loop: resolve the client config
(returning its error), dial `DialSSH(h, config.ConnectAddr(h), cfg)`
(returning its error), and collect the hosts.  The second component is the
trace of `(name, addr)` arguments passed to DialSSH. -/
def newSSHGroupGo (cw : SSHConfigM) (cenv : ResolveEnv) (denv : DialEnv) :
    List String → Except SSHErr (List HostObj) × List (String × String)
  | [] => (.ok [], [])
  | h :: rest =>
    match clientConfig cw cenv h with
    | .error e => (.error e, [])
    | .ok _ =>
      let addr := connectAddr cw h
      match denv.dial h addr with
      | .error e => (.error e, [(h, addr)])
      | .ok host =>
        let r := newSSHGroupGo cw cenv denv rest
        (r.1.map fun hosts => host :: hosts, (h, addr) :: r.2)

/-! ## The test configuration's pattern lookup (modelled from the spec)

The repository's `TestConnectAddr` reads `testdata/config`, which is not
among the available sources, and the pattern-precedence semantics live in
the external ssh_config library; both are modelled from the spec here. -/

/-- All non-empty suffixes of a character list, longest first, ending with
the empty suffix. -/
def tails : List Char → List (List Char)
  | [] => [[]]
  | c :: cs => (c :: cs) :: tails cs

/-- Modelled from the spec: the OpenSSH-style glob matching performed by
the external ssh_config lookup collaborator — `*` matches any (possibly
empty) character sequence, every other character matches itself. -/
def patMatch : List Char → List Char → Bool
  | [], s => s == []
  | '*' :: ps, s => (tails s).any fun t => patMatch ps t
  | p :: ps, s =>
    match s with
    | [] => false
    | c :: cs => (p == c) && patMatch ps cs

/-- Modelled from the spec: one `Host` block of an OpenSSH configuration
file — its patterns and its directive assignments. -/
structure HostBlock where
  pats : List String
  directives : List (String × String)

/-- Modelled from the spec: the external lookup's precedence — the first
block whose pattern matches the alias and which sets the directive wins;
otherwise the empty string (the caller then applies built-in defaults). -/
def configLookup : List HostBlock → String → String → String
  | [], _, _ => ""
  | b :: rest, hostAlias, key =>
    if b.pats.any fun p => patMatch p.toList hostAlias.toList then
      match b.directives.find? fun d => d.1 = key with
      | some d => d.2
      | none => configLookup rest hostAlias key
    else configLookup rest hostAlias key

/-- Modelled from the spec: the `testdata/config` contents implied by the
spec's concrete connection-pattern cases — `Host localhost` and
`Host 127.*` map to hostname 127.0.0.1 (user testuser), `Host Connect*`
sets only port 1234, and the wildcard `Host *` block sets user testuser2. -/
def testConfig : List HostBlock :=
  [⟨["localhost"], [("Hostname", "127.0.0.1"), ("User", "testuser")]⟩,
   ⟨["127.*"], [("Hostname", "127.0.0.1"), ("User", "testuser")]⟩,
   ⟨["Connect*"], [("Port", "1234")]⟩,
   ⟨["*"], [("User", "testuser2")]⟩]

/-- The `sshConfig` wrapper over a block list: its `Get` never fails. -/
def ofBlocks (blocks : List HostBlock) : SSHConfigM :=
  ⟨fun hostAlias key => .ok (configLookup blocks hostAlias key)⟩

end Iago

namespace Iago

/-! # Theorems -/

/-- C8: For every Perm value, `GetFilePerm` returns the supplied file mode,
or 0644 when no file mode was supplied; `GetDirPerm` returns the supplied
directory mode, else the supplied file mode when only a file mode was
supplied, else 0755 when neither was supplied. -/
theorem c8_perm_defaults :
    (∀ m : FileMode, (NewPerm m).GetFilePerm = m) ∧
    (∀ m : FileMode, (NewPerm m).GetDirPerm = m) ∧
    (∀ m d : FileMode, ((NewPerm m).WithDirPerm d).GetFilePerm = m) ∧
    (∀ m d : FileMode, ((NewPerm m).WithDirPerm d).GetDirPerm = d) ∧
    Perm.zero.GetFilePerm = 0o644 ∧
    Perm.zero.GetDirPerm = 0o755 ∧
    (∀ p : Perm, p.haveFilePerm = false → p.GetFilePerm = 0o644) ∧
    (∀ p : Perm, p.haveDirPerm = false → p.haveFilePerm = false →
      p.GetDirPerm = 0o755) ∧
    (∀ p : Perm, p.haveDirPerm = false → p.haveFilePerm = true →
      p.GetDirPerm = p.perm) := by
  refine ⟨fun m => rfl, fun m => rfl, fun m d => rfl, fun m d => rfl, rfl, rfl,
    ?_, ?_, ?_⟩ <;>
    intro p <;> intros <;>
    simp_all [Perm.GetFilePerm, Perm.GetDirPerm]

/-- Closed witness for C8's hypothesised conjuncts, at `Perm.zero` and
`NewPerm 0o600`. -/
theorem c8_perm_defaults_witness :
    Perm.zero.GetFilePerm = 0o644 ∧ Perm.zero.GetDirPerm = 0o755 ∧
    (NewPerm 0o600).GetDirPerm = 0o600 :=
  ⟨c8_perm_defaults.2.2.2.2.2.2.1 Perm.zero rfl,
   c8_perm_defaults.2.2.2.2.2.2.2.1 Perm.zero rfl rfl,
   c8_perm_defaults.2.2.2.2.2.2.2.2 (NewPerm 0o600) rfl rfl⟩

/-- A failed `sshConfig.get` always reports which key and alias failed. -/
theorem cfgGet_error (cw : SSHConfigM) (hostAlias key : String) (e : SSHErr)
    (h : cfgGet cw hostAlias key = .error e) : e = .getFailed key hostAlias := by
  unfold cfgGet at h
  cases hl : cw.lookup hostAlias key <;> rw [hl] at h <;> simp_all

/-- C5: with the host-key callback and IdentityFile lookup succeeding,
`ClientConfig` fails with the hard error naming the alias if and only if
zero usable signers were gathered — the agent contributed none (agent
unavailability is modelled by an empty agent signer list, not an error)
and the identity file contributed none (an unreadable or unparseable file
yields `none` from `fileSigner`, not an error).  A signer from either
source alone prevents that error. -/
theorem c5_zero_signers_iff (cw : SSHConfigM) (env : ResolveEnv)
    (hostAlias : String) (cb : HostKeyCallback) (identityFile : String)
    (hcb : getHostKeyCallback cw env hostAlias = .ok cb)
    (hidf : cfgGet cw hostAlias "IdentityFile" = .ok identityFile) :
    (clientConfig cw env hostAlias = .error (.noValidAuth hostAlias) ↔
      env.agent = [] ∧ fileSigner env identityFile = none) ∧
    (fileSigner env identityFile = none → env.agent ≠ [] →
      clientConfig cw env hostAlias ≠ .error (.noValidAuth hostAlias)) ∧
    (∀ k, fileSigner env identityFile = some k →
      clientConfig cw env hostAlias ≠ .error (.noValidAuth hostAlias)) := by
  have key : clientConfig cw env hostAlias = .error (.noValidAuth hostAlias) ↔
      env.agent = [] ∧ fileSigner env identityFile = none := by
    unfold clientConfig
    rw [hcb, hidf]
    cases hfs : fileSigner env identityFile with
    | some k =>
      simp only [hfs]
      have hlen : ¬(env.agent ++ [k]).length = 0 := by simp
      rw [if_neg hlen]
      constructor
      · intro h
        exfalso
        rcases hu : cfgGet cw hostAlias "User" with e | usr
        · rw [hu] at h
          have := cfgGet_error cw hostAlias "User" e hu
          simp [this] at h
        · rw [hu] at h
          by_cases husr : usr = ""
          · rcases hcu : env.currentUser with _ | u <;>
              simp [husr, hcu] at h
          · simp [husr] at h
      · rintro ⟨-, hn⟩
        simp at hn
    | none =>
      simp only [hfs]
      cases hag : env.agent with
      | nil => simp [hag]
      | cons a as =>
        have hlen : ¬(a :: as).length = 0 := by simp
        rw [if_neg hlen]
        constructor
        · intro h
          exfalso
          rcases hu : cfgGet cw hostAlias "User" with e | usr
          · rw [hu] at h
            have := cfgGet_error cw hostAlias "User" e hu
            simp [this] at h
          · rw [hu] at h
            by_cases husr : usr = ""
            · rcases hcu : env.currentUser with _ | u <;>
                simp [husr, hcu] at h
            · simp [husr] at h
        · rintro ⟨ha, -⟩
          simp at ha
  refine ⟨key, ?_, ?_⟩
  · intro hfs hag h
    exact hag (key.mp h).1
  · intro k hfs h
    have := (key.mp h).2
    rw [hfs] at this
    exact Option.noConfusion this

/-- Witness for C5: a configuration answering "no" for
StrictHostKeyChecking and a concrete path for IdentityFile, an unavailable
agent (empty signer list) and an unreadable identity file: `ClientConfig`
fails with the no-valid-authentication error naming the alias "x". -/
theorem c5_zero_signers_iff_witness :
    clientConfig
      ⟨fun _ k => .ok (if k = "StrictHostKeyChecking" then "no" else
        if k = "IdentityFile" then "/id" else "")⟩
      ⟨"/root", [], fun _ => none, fun _ => none, fun _ => false,
        fun _ => some .insecureIgnore, some "me"⟩ "x" =
      .error (.noValidAuth "x") :=
  ((c5_zero_signers_iff
      ⟨fun _ k => .ok (if k = "StrictHostKeyChecking" then "no" else
        if k = "IdentityFile" then "/id" else "")⟩
      ⟨"/root", [], fun _ => none, fun _ => none, fun _ => false,
        fun _ => some .insecureIgnore, some "me"⟩ "x"
      .insecureIgnore "/id" (by decide) (by decide)).1).mpr ⟨rfl, rfl⟩

/-- C7: `ConnectAddr` joins the Hostname directive value (the alias when
unset) with the Port directive value (the built-in default "22" when
unset); on the configuration modelled from the spec's test cases, alias
localhost resolves to "127.0.0.1:22", alias 127.0.1.2 matches Host 127.*
and resolves to "127.0.0.1:22", alias ConnectTest matches Host Connect*
and resolves to "ConnectTest:1234", and alias asdf matches only Host * and
resolves to "asdf:22". -/
theorem c7_connectAddr (cw : SSHConfigM) (hostAlias hostname port : String)
    (hh : cw.lookup hostAlias "Hostname" = .ok hostname)
    (hp : cw.lookup hostAlias "Port" = .ok port) :
    connectAddr cw hostAlias =
      joinHostPort (if hostname = "" then hostAlias else hostname)
        (if port = "" then "22" else port) ∧
    connectAddr (ofBlocks testConfig) "localhost" = "127.0.0.1:22" ∧
    connectAddr (ofBlocks testConfig) "127.0.1.2" = "127.0.0.1:22" ∧
    connectAddr (ofBlocks testConfig) "ConnectTest" = "ConnectTest:1234" ∧
    connectAddr (ofBlocks testConfig) "asdf" = "asdf:22" := by
  refine ⟨?_, by decide, by decide, by decide, by decide⟩
  unfold connectAddr cfgGet
  rw [hh, hp]
  by_cases hhn : hostname = "" <;> by_cases hpt : port = "" <;>
    simp [hhn, hpt, sshDefault]

/-- Witness for C7: the general Hostname/Port equation applied to the
modelled test configuration at alias ConnectTest, whose Hostname is unset
and whose Port is 1234. -/
theorem c7_connectAddr_witness :
    connectAddr (ofBlocks testConfig) "ConnectTest" =
      joinHostPort "ConnectTest" "1234" :=
  by simpa using
    (c7_connectAddr (ofBlocks testConfig) "ConnectTest" "" "1234"
      (by decide) (by decide)).1

/-- C10: `ConnectAddr` never reports an error to its caller — a failing
Hostname or Port lookup yields the empty string — and `NewSSHGroup` passes
exactly `config.ConnectAddr(h)` (possibly empty) as the address of every
`DialSSH` call it makes. -/
theorem c10_connectAddr_empty_on_error (cw : SSHConfigM) (hostAlias : String) :
    (∀ e, cw.lookup hostAlias "Hostname" = .error e →
      connectAddr cw hostAlias = "") ∧
    (∀ e, cw.lookup hostAlias "Port" = .error e →
      connectAddr cw hostAlias = "") ∧
    (∀ (cenv : ResolveEnv) (denv : DialEnv) (aliases : List String),
      ∀ call ∈ (newSSHGroupGo cw cenv denv aliases).2,
        call.2 = connectAddr cw call.1) := by
  refine ⟨?_, ?_, ?_⟩
  · intro e he
    unfold connectAddr cfgGet
    rw [he]
  · intro e he
    unfold connectAddr cfgGet
    cases hh : cw.lookup hostAlias "Hostname" with
    | error _ => rfl
    | ok hostname => rw [he]
  · intro cenv denv aliases
    induction aliases with
    | nil =>
      intro call hc
      simp [newSSHGroupGo] at hc
    | cons h rest ih =>
      intro call hc
      unfold newSSHGroupGo at hc
      cases hcc : clientConfig cw cenv h with
      | error e => rw [hcc] at hc; simp at hc
      | ok c =>
        rw [hcc] at hc
        cases hd : denv.dial h (connectAddr cw h) with
        | error e =>
          simp only [hd] at hc
          simp at hc
          subst hc
          rfl
        | ok host =>
          simp only [hd] at hc
          simp at hc
          rcases hc with hc | hc
          · subst hc
            rfl
          · exact ih call hc

/-- Witness for C10: a configuration whose lookups always fail makes
`ConnectAddr` return "", and on a one-alias run the DialSSH trace is
consistent with `ConnectAddr` (the run aborts before dialing because the
client config also fails, so the trace is empty). -/
theorem c10_connectAddr_empty_on_error_witness :
    connectAddr ⟨fun _ _ => .error "lookup failed"⟩ "h" = "" ∧
    ∀ call ∈ (newSSHGroupGo ⟨fun _ _ => .error "lookup failed"⟩
        ⟨"/root", [], fun _ => none, fun _ => none, fun _ => false,
          fun _ => some .insecureIgnore, some "me"⟩
        ⟨fun _ _ => .ok 0⟩ ["h"]).2,
      call.2 = connectAddr ⟨fun _ _ => .error "lookup failed"⟩ call.1 :=
  ⟨(c10_connectAddr_empty_on_error ⟨fun _ _ => .error "lookup failed"⟩ "h").1
      "lookup failed" rfl,
   (c10_connectAddr_empty_on_error ⟨fun _ _ => .error "lookup failed"⟩ "h").2.2
      ⟨"/root", [], fun _ => none, fun _ => none, fun _ => false,
        fun _ => some .insecureIgnore, some "me"⟩
      ⟨fun _ _ => .ok 0⟩ ["h"]⟩

/-- C6: for every valid name, the remote `sftpFS.OpenFile` stats the target
first (the trace begins with the stat of `prefix + "/" + name`); if the
target is a directory it fails with "is a directory" having issued only the
stat (no open); if the target does not exist it opens/creates the file and
then explicitly chmods the requested mode; if the target exists as a
regular file it opens it and performs no chmod. -/
theorem c6_sftp_openFile (env : SftpEnv) (pre name : String) (flag : Nat)
    (perm : FileMode) (hv : validPath name = true) :
    (env.stat (pre ++ "/" ++ name) = .found true →
      sftpOpenFile env pre name flag perm =
        (.errIsDir, [.statOp (pre ++ "/" ++ name)])) ∧
    (env.stat (pre ++ "/" ++ name) = .notExist →
      env.openOk (pre ++ "/" ++ name) flag = true → env.chmodOk = true →
      sftpOpenFile env pre name flag perm =
        (.opened, [.statOp (pre ++ "/" ++ name),
          .openOp (pre ++ "/" ++ name) flag, .chmodOp perm])) ∧
    (env.stat (pre ++ "/" ++ name) = .found false →
      env.openOk (pre ++ "/" ++ name) flag = true →
      sftpOpenFile env pre name flag perm =
        (.opened, [.statOp (pre ++ "/" ++ name),
          .openOp (pre ++ "/" ++ name) flag]) ∧
      ∀ m, SftpOp.chmodOp m ∉ (sftpOpenFile env pre name flag perm).2) ∧
    (sftpOpenFile env pre name flag perm).2.head? =
      some (.statOp (pre ++ "/" ++ name)) := by
  have hnv : (!validPath name) = false := by simp [hv]
  refine ⟨fun hstat => ?_, fun hstat hopen hchmod => ?_,
    fun hstat hopen => ⟨?_, ?_⟩, ?_⟩
  · simp [sftpOpenFile, hnv, hstat]
  · simp [sftpOpenFile, hnv, hstat, hopen, hchmod]
  · simp [sftpOpenFile, hnv, hstat, hopen]
  · simp [sftpOpenFile, hnv, hstat, hopen]
  · rcases hstat : env.stat (pre ++ "/" ++ name) with isDir | _ | _
    · cases isDir
      · rcases hopen : env.openOk (pre ++ "/" ++ name) flag <;>
          simp [sftpOpenFile, hnv, hstat, hopen]
      · simp [sftpOpenFile, hnv, hstat]
    · rcases hopen : env.openOk (pre ++ "/" ++ name) flag <;>
        rcases hchmod : env.chmodOk <;>
        simp [sftpOpenFile, hnv, hstat, hopen, hchmod]
    · rcases hopen : env.openOk (pre ++ "/" ++ name) flag <;>
        simp [sftpOpenFile, hnv, hstat, hopen]

/-- Witness for C6: a concrete SFTP session where the target does not
exist, open succeeds, and chmod succeeds: OpenFile of "f" under prefix ""
with flags `O_WRONLY|O_CREATE|O_TRUNC` (577) and mode 0644 opens the file
and explicitly chmods 0644 afterward. -/
theorem c6_sftp_openFile_witness :
    sftpOpenFile ⟨fun _ => .notExist, fun _ _ => true, true⟩ "" "f" 577 0o644 =
      (.opened, [.statOp "/f", .openOp "/f" 577, .chmodOp 0o644]) :=
  (c6_sftp_openFile ⟨fun _ => .notExist, fun _ _ => true, true⟩ "" "f" 577 0o644
    (by decide)).2.1 rfl rfl rfl

/-- C4 (code bug): `NewPath` does reject an absolute path component, a
non-absolute prefix, and the empty prefix, and `NewPath "/home/user"
"file.txt"` succeeds — but `Path.String` concatenates prefix and path with
no separator, so the resolved string is "/home/userfile.txt", not the
"/home/user/file.txt" required by the claim and by the repository's own
`TestNewPath` ({prefix: "/home/user", path: "file.txt", want:
"/home/user/file.txt"}). -/
theorem c4_newPath_string_no_separator :
    (∀ path, NewPath "" path = .error (.notAbsolute "")) ∧
    NewPath "/home/user" "/file.txt" = .error (.notRelative "/file.txt") ∧
    NewPath "home/user" "file.txt" = .error (.notAbsolute "home/user") ∧
    NewPath "/home/user" "file.txt" = .ok ⟨"/home/user", "file.txt"⟩ ∧
    (NewPath "/home/user" "file.txt").map Path.toString =
      .ok "/home/userfile.txt" ∧
    "/home/userfile.txt" ≠ "/home/user/file.txt" :=
  ⟨fun _ => by rfl, by decide, by decide, by decide, by decide, by decide⟩

/-- C3: For every host and Download action (fetch), a directory source is
copied to destination `dest/<hostname>` and a regular-file source to
destination `dest.<hostname>`, while an Upload uses the destination
unmodified in both cases. -/
theorem c3_download_dest_augmented (src dest hostName : String) :
    copyActionApply true src dest hostName (some true) =
      some (.dir src (dest ++ "/" ++ hostName)) ∧
    copyActionApply true src dest hostName (some false) =
      some (.file src (dest ++ "." ++ hostName)) ∧
    copyActionApply false src dest hostName (some true) =
      some (.dir src dest) ∧
    copyActionApply false src dest hostName (some false) =
      some (.file src dest) :=
  ⟨rfl, rfl, rfl, rfl⟩

/-- C9 counterexample: the claim as stated is false on the code — with
`session.Run` failing with "exit status 1" and the deferred session close
failing with the non-EOF error "close failed", `Execute` returns
`("", "close failed")`, not `("", nil)`: `safeClose(session, &err, io.EOF)`
overwrites the nil named-return error after `return "", nil`. -/
theorem c9_execute_counterexample :
    executeCmd
      ⟨.ok 0, fun _ _ => ("partial output", some "exit status 1"),
        fun _ => some "close failed"⟩ "false" = ("", some "close failed") ∧
    (("", some "close failed") : String × Option Err) ≠ ("", none) := by
  refine ⟨?_, by decide⟩
  simp [executeCmd, safeClose, ioEOF]

/-- C9 (amended): whenever the remote `session.Run` fails, `Execute`
returns the empty output and discards the underlying command error; the
returned error is nil when the deferred session close succeeds or fails
with io.EOF, and is the session-close error itself when that close fails
with a non-EOF error. -/
theorem c9_execute_swallows_run_error (env : ExecEnv) (cmd : String)
    (session : Session) (out : String) (e : Err)
    (hs : env.newSession = .ok session)
    (hr : env.runCmd session cmd = (out, some e)) :
    executeCmd env cmd =
      ("", safeClose (env.closeSession session) none [ioEOF]) ∧
    (env.closeSession session = none → executeCmd env cmd = ("", none)) ∧
    (env.closeSession session = some ioEOF →
      executeCmd env cmd = ("", none)) ∧
    (∀ ce, env.closeSession session = some ce → ce ≠ ioEOF →
      executeCmd env cmd = ("", some ce)) := by
  have base : executeCmd env cmd =
      ("", safeClose (env.closeSession session) none [ioEOF]) := by
    simp [executeCmd, hs, hr]
  refine ⟨base, ?_, ?_, ?_⟩
  · intro hc
    rw [base, hc]
    rfl
  · intro hc
    rw [base, hc]
    simp [safeClose]
  · intro ce hc hne
    rw [base, hc]
    simp [safeClose, hne]

/-- Witness for C9: a concrete environment whose `session.Run` fails with
"exit status 1" and whose session close succeeds; `Execute` returns
`("", nil)`. -/
theorem c9_execute_swallows_run_error_witness :
    executeCmd
      ⟨.ok 0, fun _ _ => ("partial output", some "exit status 1"),
        fun _ => none⟩ "false" = ("", none) :=
  (c9_execute_swallows_run_error
    ⟨.ok 0, fun _ _ => ("partial output", some "exit status 1"),
      fun _ => none⟩
    "false" 0 "partial output" "exit status 1" rfl rfl).2.1 rfl

/-- `handlerCalls` counts the `some` entries of the arrivals list. -/
theorem handlerCalls_length (arrivals : List (Option TaskError)) :
    (handlerCalls arrivals).length = arrivals.countP Option.isSome := by
  induction arrivals with
  | nil => rfl
  | cons a rest ih =>
    cases a <;> simp [handlerCalls, List.countP_cons, List.filterMap] at ih ⊢ <;>
      omega

/-- A wrapped result is `some` exactly when the action's error was. -/
theorem isSome_wrapError (hostName taskName : String) (r : Option Err) :
    (wrapError hostName taskName r).isSome = r.isSome := by
  cases r <;> rfl

/-- C1: Group.Run on N hosts collects exactly one result per host for every
channel arrival order (any permutation of the per-host results), invokes the
error handler exactly once per host whose action returned a non-nil error
and never for a host whose action returned nil, and for an empty group it
completes with zero results and zero handler invocations. -/
theorem c1_group_run_barrier (hosts : List GHost) (taskName : String)
    (f : GHost → Option Err) (arrivals : List (Option TaskError))
    (hperm : arrivals.Perm (runResults hosts taskName f)) :
    arrivals.length = hosts.length ∧
    (handlerCalls arrivals).length =
      (hosts.filter fun h => (f h).isSome).length ∧
    (hosts = [] → arrivals = [] ∧ handlerCalls arrivals = []) := by
  refine ⟨?_, ?_, ?_⟩
  · simpa [runResults] using hperm.length_eq
  · rw [handlerCalls_length, hperm.countP_eq, runResults, List.countP_map,
      ← List.countP_eq_length_filter]
    congr 1
    funext h
    simp [isSome_wrapError]
  · intro hnil
    subst hnil
    have : arrivals = [] := List.Perm.eq_nil (by simpa [runResults] using hperm)
    simp [this, handlerCalls]

/-- Witness for C1: two hosts, `a` failing and `b` succeeding, with the
arrival order reversed relative to launch order: two results are collected
and the handler fires exactly once. -/
theorem c1_group_run_barrier_witness :
    ([none, some ⟨"t", "a", "boom"⟩] : List (Option TaskError)).length =
      [GHost.mk "a", GHost.mk "b"].length ∧
    (handlerCalls [none, some ⟨"t", "a", "boom"⟩]).length =
      (([GHost.mk "a", GHost.mk "b"].filter fun h =>
        ((if h.name = "a" then some "boom" else none) : Option Err).isSome)).length ∧
    ([GHost.mk "a", GHost.mk "b"] = ([] : List GHost) →
      ([none, some ⟨"t", "a", "boom"⟩] : List (Option TaskError)) = [] ∧
      handlerCalls [none, some ⟨"t", "a", "boom"⟩] = []) :=
  c1_group_run_barrier [GHost.mk "a", GHost.mk "b"] "t"
    (fun h => if h.name = "a" then some "boom" else none)
    [none, some ⟨"t", "a", "boom"⟩] (by decide)

/-- C2: for every arrival order, every error handed to the handler is a
TaskError wrapping some host's non-nil action error with that host's name
and the task's name; and every host's result — in particular every
succeeding host's nil result — is collected regardless of other hosts'
failures: each host's wrapped result occurs in the arrivals at least as
often as the host occurs in the group. -/
theorem c2_wrap_and_isolation (hosts : List GHost) (taskName : String)
    (f : GHost → Option Err) (arrivals : List (Option TaskError))
    (hperm : arrivals.Perm (runResults hosts taskName f)) :
    (∀ te ∈ handlerCalls arrivals, ∃ h ∈ hosts,
      f h = some te.Err ∧ te.HostName = h.name ∧ te.TaskName = taskName) ∧
    (∀ h ∈ hosts,
      hosts.count h ≤ arrivals.count (wrapError h.name taskName (f h))) := by
  constructor
  · intro te hte
    have hmem : some te ∈ arrivals := by
      obtain ⟨a, ha, hb⟩ := List.mem_filterMap.mp hte
      simp only [id] at hb
      exact hb ▸ ha
    have hmem' : some te ∈ runResults hosts taskName f := hperm.mem_iff.mp hmem
    obtain ⟨h, hh, hwrap⟩ := List.mem_map.mp hmem'
    refine ⟨h, hh, ?_⟩
    cases hf : f h with
    | none => rw [hf] at hwrap; exact absurd hwrap.symm (by simp [wrapError])
    | some e =>
      rw [hf] at hwrap
      have : (⟨taskName, h.name, e⟩ : TaskError) = te := by
        simpa [wrapError] using hwrap
      cases this
      exact ⟨rfl, rfl, rfl⟩
  · intro h _
    have step : hosts.countP (· == h) ≤
        hosts.countP ((· == wrapError h.name taskName (f h)) ∘
          fun h' => wrapError h'.name taskName (f h')) := by
      apply List.countP_mono_left
      intro a _ ha
      have : a = h := by simpa using ha
      subst this
      simp
    calc hosts.count h = hosts.countP (· == h) := List.count_eq_countP ..
      _ ≤ hosts.countP ((· == wrapError h.name taskName (f h)) ∘
            fun h' => wrapError h'.name taskName (f h')) := step
      _ = (runResults hosts taskName f).countP
            (· == wrapError h.name taskName (f h)) :=
          (List.countP_map ..).symm
      _ = arrivals.countP (· == wrapError h.name taskName (f h)) :=
          (hperm.countP_eq _).symm
      _ = arrivals.count (wrapError h.name taskName (f h)) :=
          (List.count_eq_countP ..).symm

/-- Witness for C2: with hosts `a` (failing) and `b` (succeeding) and a
reversed arrival order, each handler call wraps a failing host's error with
its host name and the task name, and each host's result was collected. -/
theorem c2_wrap_and_isolation_witness :
    (∀ te ∈ handlerCalls [none, some ⟨"t", "a", "boom"⟩],
      ∃ h ∈ [GHost.mk "a", GHost.mk "b"],
        (if h.name = "a" then some "boom" else none) = some te.Err ∧
        te.HostName = h.name ∧ te.TaskName = "t") ∧
    (∀ h ∈ [GHost.mk "a", GHost.mk "b"],
      [GHost.mk "a", GHost.mk "b"].count h ≤
        ([none, some ⟨"t", "a", "boom"⟩] : List (Option TaskError)).count
          (wrapError h.name "t" (if h.name = "a" then some "boom" else none))) :=
  c2_wrap_and_isolation [GHost.mk "a", GHost.mk "b"] "t"
    (fun h => if h.name = "a" then some "boom" else none)
    [none, some ⟨"t", "a", "boom"⟩] (by decide)

